import Mathlib

/-!
Verification of the concurrent ETL pipeline (Go, single `main` package).

This file is a shallow embedding of the pipeline's data model and
operations, translated from the source:

* `CpuStats`, `Indicator`, `DeviceData`, `Appliance` — the data structures.
* `transform` — the pure raw-to-normalized transformer (float64 values are
  modelled as rationals `ℚ`; `strconv.ParseFloat` is modelled by
  `parseFloat`, a parser for Go's decimal float syntax).
* lane assignment `targetWorker := index % loadWorkers` — `assignLanes`.
* `loadWorker` / `flushBuffer` / `sendToAPI` — the per-lane buffering and
  flush protocol; the HTTP response is abstracted as an
  `Option Nat` status code (`none` = network-level failure).
* `saveBufferToFile` / `readBufferFromFile` — the persisted-failure file
  format, modelled at the level of the JSON document (gzip compression is
  lossless and is modelled as the identity on the document).
* `loadFailedBuffers` / `extractWorkerID` — the recovery loader, over an
  abstract directory listing; slice indexing out of range is modelled by
  returning `none` (a Go panic).
* `readAppliancesFromCSV` — row filtering of the parsed CSV records.
* the extraction semaphore discipline — a step relation `SchedStep`.
-/

/-! ## Data structures (source lines 27–53) -/

/-- Source line 27: `type Appliance struct { IP, HostName string }`. -/
structure Appliance where
  IP : String
  HostName : String
deriving DecidableEq

/-- Source line 32: `type CpuStats struct {...}`; the five percentage
fields are opaque decimal strings, `Timestamp uint64` is a `Nat`. -/
structure CpuStats where
  Name : String
  Timestamp : Nat
  CPUNumber : String
  PIdle : String
  PUser : String
  PSys : String
  PIRQ : String
  PNice : String
deriving DecidableEq

/-- Source line 43: `type Indicator struct { Name string; Value float64 }`;
`float64` is modelled as `ℚ`. -/
structure Indicator where
  Name : String
  Value : ℚ
deriving DecidableEq

/-- Source line 48: `type DeviceData struct {...}` (the NormalizedRecord). -/
structure DeviceData where
  Name : String
  CPUNumber : String
  Timestamp : Nat
  Indicators : List Indicator
deriving DecidableEq

/-! ## Configuration constants (source lines 59–67) -/

/-- Source line 61: `bufferThreshold = 200`. -/
def bufferThreshold : Nat := 200

/-- Source line 65: `extractWorkers = 1000` (the extraction concurrency
limit `E`). -/
def extractWorkers : Nat := 1000

/-- Source line 66: `loadWorkers = 10` (the number of lanes `L`). -/
def loadWorkers : Nat := 10

/-! ## Transform (source lines 213–234) and `strconv.ParseFloat` model -/

/-- Numeric value of a list of decimal digit characters, most significant
first (the value `strconv` assigns to a digit string). -/
def digitsToNat (ds : List Char) : Nat :=
  ds.foldl (fun n c => n * 10 + (c.toNat - 48)) 0

/-- Strip one optional leading sign, returning the sign as `1` or `-1`
together with the rest of the characters. -/
def parseSign : List Char → Int × List Char
  | '-' :: rest => (-1, rest)
  | '+' :: rest => (1, rest)
  | cs => (1, cs)

/-- Mantissa of a Go decimal float: digits with at most one dot and at
least one digit overall (`"5"`, `"5."`, `".5"`, `"0.5"`). -/
def parseMantissa (cs : List Char) : Option ℚ :=
  match cs.splitOn '.' with
  | [ip] =>
      if ip ≠ [] ∧ ip.all Char.isDigit then some (digitsToNat ip : ℚ) else none
  | [ip, fp] =>
      if ip ++ fp ≠ [] ∧ (ip ++ fp).all Char.isDigit then
        some ((digitsToNat ip : ℚ) + (digitsToNat fp : ℚ) / (10 : ℚ) ^ fp.length)
      else none
  | _ => none

/-- Exponent part of a Go decimal float: optional sign then digits. -/
def parseExp (cs : List Char) : Option Int :=
  let (sgn, ds) := parseSign cs
  if ds ≠ [] ∧ ds.all Char.isDigit then some (sgn * (digitsToNat ds : Int)) else none

/-- Model of `strconv.ParseFloat(s, 64)` restricted to Go's decimal float
syntax `[+|-] digits [. digits] [(e|E) [+|-] digits]` and with the value
represented exactly in `ℚ` (`Inf`, `NaN`, hex floats, digit-group
underscores and float64 rounding/overflow are outside the model; none of
the verified claims depend on them). `none` models a parse error. -/
def parseFloat (s : String) : Option ℚ :=
  let (sgn, cs) := parseSign s.toList
  match List.splitOnP (fun c => c == 'e' || c == 'E') cs with
  | [m] => (parseMantissa m).map (fun q => (sgn : ℚ) * q)
  | [m, e] =>
      match parseMantissa m, parseExp e with
      | some q, some ex => some ((sgn : ℚ) * q * (10 : ℚ) ^ ex)
      | _, _ => none
  | _ => none

/-- Go's `v, _ := strconv.ParseFloat(s, 64)` idiom: the parsed value, or
`0` when parsing fails (source lines 214–218 discard the error). -/
def parseFloatOr0 (s : String) : ℚ := (parseFloat s).getD 0

/-- Source lines 213–234: `func transform(cpu *CpuStats) DeviceData`. -/
def transform (cpu : CpuStats) : DeviceData :=
  let idle := parseFloatOr0 cpu.PIdle
  let pNice := parseFloatOr0 cpu.PNice
  let pUser := parseFloatOr0 cpu.PUser
  let pSys := parseFloatOr0 cpu.PSys
  let pIRQ := parseFloatOr0 cpu.PIRQ
  { Name := cpu.Name
    CPUNumber := cpu.CPUNumber
    Timestamp := cpu.Timestamp
    Indicators :=
      [⟨"utilization", 100 - idle⟩,
       ⟨"nice", pNice⟩,
       ⟨"user", pUser⟩,
       ⟨"system", pSys⟩,
       ⟨"irq", pIRQ⟩] }

/-! ## Partitioner (source lines 122–146) -/

/-- Lane assignment of the extraction loop, starting at index `idx`:
each appliance at source position `i` is sent to lane `i % L`
(source line 143: `targetWorker := index % loadWorkers`). -/
def assignFrom (L idx : Nat) : List Appliance → List (Appliance × Nat)
  | [] => []
  | a :: rest => (a, idx % L) :: assignFrom L (idx + 1) rest

/-- Source lines 122–146: the `for idx, appliance := range appliances`
loop pairs every appliance with its target lane `idx % loadWorkers`. -/
def assignLanes (apps : List Appliance) (L : Nat) : List (Appliance × Nat) :=
  assignFrom L 0 apps

/-! ## Flush/send protocol (source lines 264–305)

The HTTP exchange of `sendToAPI` is abstracted by its observable outcome:
`resp : Option Nat` is the endpoint's status code, `none` standing for a
network-level failure (`client.Do` returning an error). -/

/-- Source lines 283–305: `sendToAPI` succeeds (returns a nil error)
exactly when the request goes through and the status code is 2xx
(line 300: `resp.StatusCode >= 200 && resp.StatusCode <= 299`). -/
def sendToAPI (_data : List DeviceData) (resp : Option Nat) : Bool :=
  match resp with
  | none => false
  | some code => 200 ≤ code && code ≤ 299

/-- Filename used by `flushBuffer` for a failed batch of lane `workerID`
(source line 271 builds `buffer_failed_worker%d` and `saveBufferToFile`
appends `.json.gz` at line 379). -/
def failedFileName (workerID : Nat) : String :=
  "buffer_failed_worker" ++ toString workerID ++ ".json.gz"

/-- Outcome of one `flushBuffer` call: the buffer contents afterwards and
the persisted-failure file written, if any (filename together with the
records encoded into it). -/
structure FlushResult where
  newData : List DeviceData
  savedFile : Option (String × List DeviceData)
deriving DecidableEq

/-- Source lines 264–277: `flushBuffer` copies the buffer into `toSend`,
sends it, persists the whole snapshot to the lane-named file on failure,
and unconditionally clears the buffer (`buffer.Data = nil`). -/
def flushBuffer (bufData : List DeviceData) (workerID : Nat) (resp : Option Nat) :
    FlushResult :=
  let toSend := bufData
  if sendToAPI toSend resp then
    { newData := [], savedFile := none }
  else
    { newData := [], savedFile := some (failedFileName workerID, toSend) }

/-! ## Load worker (source lines 240–262)

The worker is modelled as consuming the lane queue's record sequence to
completion: the `for item := range ch` loop is a fold over the list of
records the queue delivers, and queue closure triggers the final flush.
`resp n` is the endpoint's response to the worker's `n`-th flush. -/

/-- State of one load worker: its buffer, the snapshots flushed so far
(in order), and the persisted-failure files written so far. -/
structure WorkerState where
  bufData : List DeviceData
  flushes : List (List DeviceData)
  files : List (String × List DeviceData)
deriving DecidableEq

/-- One iteration of the `for item := range ch` loop (source lines
246–254): append the item, then flush if the buffer has reached
`bufferThreshold` (the threshold is the parameter `th`). -/
def workerStep (th wid : Nat) (resp : Nat → Option Nat) (s : WorkerState)
    (item : DeviceData) : WorkerState :=
  let newBuf := s.bufData ++ [item]
  if th ≤ newBuf.length then
    let r := flushBuffer newBuf wid (resp s.flushes.length)
    { bufData := r.newData
      flushes := s.flushes ++ [newBuf]
      files := s.files ++ r.savedFile.toList }
  else
    { s with bufData := newBuf }

/-- The receive loop of `loadWorker` over the records `items` delivered by
the lane queue. -/
def workerLoop (th wid : Nat) (resp : Nat → Option Nat) (items : List DeviceData)
    (s : WorkerState) : WorkerState :=
  items.foldl (workerStep th wid resp) s

/-- Source lines 240–262: `loadWorker` drains its queue and, once the
queue is closed, performs a final flush if the buffer is non-empty. -/
def loadWorker (th wid : Nat) (resp : Nat → Option Nat) (items : List DeviceData) :
    WorkerState :=
  let s := workerLoop th wid resp items ⟨[], [], []⟩
  if s.bufData ≠ [] then
    let r := flushBuffer s.bufData wid (resp s.flushes.length)
    { bufData := r.newData
      flushes := s.flushes ++ [s.bufData]
      files := s.files ++ r.savedFile.toList }
  else s

/-! ## Filename parsing (source lines 361–372) and the Go string
primitives it uses, modelled on `List Char` -/

/-- Model of Go `filepath.Base` for the cases arising here: drop trailing
slashes, then keep everything after the last remaining slash. (Go returns
`"."` for an empty path and `"/"` for all-slash paths; the recovery
loader only ever passes non-empty slash-free names produced by
`filepath.Glob` in the working directory, where those cases cannot
arise.) -/
def baseName (cs : List Char) : List Char :=
  ((cs.reverse.dropWhile (fun c => c == '/')).takeWhile (fun c => c != '/')).reverse

/-- Model of Go `strings.TrimSuffix`. -/
def trimSuffix (cs suffix : List Char) : List Char :=
  if suffix.isSuffixOf cs then cs.take (cs.length - suffix.length) else cs

/-- Scanner of Go `strings.Split` for a non-empty separator `s0 :: srest`:
cut at each leftmost non-overlapping occurrence. When an occurrence is
found at the current character, the remaining `srest.length` characters
of the separator are consumed through the `skip` counter, keeping the
recursion structural on the scanned list. -/
def goSplitAux (s0 : Char) (srest : List Char) :
    Nat → List Char → List Char → List (List Char)
  | _, acc, [] => [acc.reverse]
  | skip + 1, acc, _ :: rest => goSplitAux s0 srest skip acc rest
  | 0, acc, c :: rest =>
    if (s0 :: srest).isPrefixOf (c :: rest) then
      acc.reverse :: goSplitAux s0 srest srest.length [] rest
    else
      goSplitAux s0 srest 0 (c :: acc) rest

/-- Model of Go `strings.Split(cs, sep)`. (For the empty separator Go
splits after every UTF-8 sequence; the source only ever splits on
`"worker"`.) -/
def goSplit (cs sep : List Char) : List (List Char) :=
  match sep with
  | [] => cs.map (fun c => [c])
  | s0 :: srest => goSplitAux s0 srest 0 [] cs

/-- Digit-run parser underlying the `strconv.Atoi` model: all characters
must be decimal digits and there must be at least one. -/
def digitsOpt (cs : List Char) : Option Nat :=
  if cs ≠ [] ∧ cs.all Char.isDigit then some (digitsToNat cs) else none

/-- Model of Go `strconv.Atoi`: optional sign followed by at least one
digit (int64 overflow, which Go reports as an error, is outside the
model; the worker ids arising here are single digits). -/
def parseIntGo (cs : List Char) : Option Int :=
  match cs with
  | [] => none
  | c :: rest =>
    if c = '-' then (digitsOpt rest).map (fun n => -(n : Int))
    else if c = '+' then (digitsOpt rest).map (fun n => (n : Int))
    else (digitsOpt (c :: rest)).map (fun n => (n : Int))

/-- Character-list body of `extractWorkerID` (source lines 361–372):
take the base name, trim the `.json.gz` suffix, split on `worker`; if the
split does not yield exactly two parts, or the second part is not a valid
integer, return lane `0`, else the parsed integer. -/
def extractWorkerIDCore (fileName : List Char) : Int :=
  let base := baseName fileName
  let parts := goSplit (trimSuffix base (".json.gz".toList)) ("worker".toList)
  match parts with
  | [_, p1] =>
    match parseIntGo p1 with
    | some id => id
    | none => 0
  | _ => 0

/-- Source lines 361–372: `func extractWorkerID(fileName string) int`. -/
def extractWorkerID (fileName : String) : Int :=
  extractWorkerIDCore fileName.toList

/-- Model of the `filepath.Glob` pattern `buffer_failed_worker*.json.gz`
used at source line 312: the name matches when it starts with
`buffer_failed_worker` and ends with `.json.gz`. -/
def globMatches (name : String) : Bool :=
  ("buffer_failed_worker".toList.isPrefixOf name.toList) &&
    (".json.gz".toList.isSuffixOf name.toList)

/-! ## Recovery loader (source lines 311–340)

The directory listing is abstracted as a list of files, each a name
together with `some records` (the file decompresses and decodes to that
record sequence) or `none` (opening, decompressing or decoding fails).
Sending on `dataChan[workerID]` during recovery appends to that lane's
queue contents; the whole computation returns `none` when `workerID` is
outside the bounds of `dataChan` (the Go slice access would panic). -/

/-- One observable action of the recovery loader, in execution order. -/
inductive RecEvent where
  | enq (lane : Int) (d : DeviceData)
  | del (name : String)
deriving DecidableEq

/-- State threaded through `loadFailedBuffers`: per-lane queue contents,
the files still on disk, and the trace of actions taken so far. -/
structure RecoveryState where
  queues : List (List DeviceData)
  remaining : List (String × Option (List DeviceData))
  events : List RecEvent
deriving DecidableEq

/-- The `for _, data := range dataList { dataChan[workerID] <- data }`
loop (source lines 329–331): append `rs` to queue `lane`, or `none` when
the index is out of range (Go panics there). -/
def enqueueAll (queues : List (List DeviceData)) (lane : Int)
    (rs : List DeviceData) : Option (List (List DeviceData)) :=
  if h : 0 ≤ lane ∧ lane.toNat < queues.length then
    some (queues.set lane.toNat (queues.get ⟨lane.toNat, h.2⟩ ++ rs))
  else none

/-- Body of the `for _, file := range files` loop (source lines 318–339):
a file that fails to read or decode is skipped and stays on disk; a file
that decodes has all its records enqueued onto the lane parsed from its
name, in order, and is deleted afterwards. -/
def processFile (st : RecoveryState) (file : String × Option (List DeviceData)) :
    Option RecoveryState :=
  match file.2 with
  | none => some { st with remaining := st.remaining ++ [file] }
  | some rs =>
    let lane := extractWorkerID file.1
    match enqueueAll st.queues lane rs with
    | none => none
    | some qs =>
      some { queues := qs
             remaining := st.remaining
             events := st.events ++ rs.map (RecEvent.enq lane) ++ [RecEvent.del file.1] }

/-- Source lines 311–340: `loadFailedBuffers`, folded over the glob
results `files` given the initial queue contents `queues`. -/
def loadFailedBuffers (files : List (String × Option (List DeviceData)))
    (queues : List (List DeviceData)) : Option RecoveryState :=
  files.foldl (fun acc file => acc.bind (fun st => processFile st file))
    (some { queues := queues, remaining := [], events := [] })

/-! ## Persistence format (source lines 342–359 and 378–394)

`saveBufferToFile` writes a gzip-compressed JSON array of `DeviceData`;
`readBufferFromFile` reverses it. gzip is lossless, so the file content
is modelled as the JSON document itself; JSON numbers carry the exact
`ℚ` value (Go's float64 shortest-representation round-trip is likewise
exact). -/

/-- JSON documents, as produced by `encoding/json`. -/
inductive Json where
  | str (s : String)
  | num (q : ℚ)
  | arr (xs : List Json)
  | obj (fields : List (String × Json))

/-- Encoding of one `Indicator` with its struct tags `name`, `value`
(source lines 43–46). -/
def encodeIndicator (ind : Indicator) : Json :=
  .obj [("name", .str ind.Name), ("value", .num ind.Value)]

/-- Encoding of one `DeviceData` with its struct tags `name`,
`cpu_number`, `timestamp`, `indicators` (source lines 48–53). -/
def encodeDeviceData (d : DeviceData) : Json :=
  .obj [("name", .str d.Name),
        ("cpu_number", .str d.CPUNumber),
        ("timestamp", .num (d.Timestamp : ℚ)),
        ("indicators", .arr (d.Indicators.map encodeIndicator))]

/-- Source lines 378–394: `saveBufferToFile` encodes the records as one
JSON array (then gzips it, modelled as the identity). -/
def saveBufferToFile (data : List DeviceData) : Json :=
  .arr (data.map encodeDeviceData)

/-- Field lookup in a decoded JSON object. (`encoding/json` lets a later
duplicate key win; the encoder above never emits duplicate keys, so
first-match lookup agrees with Go on every document it is applied to.) -/
def lookupField (fields : List (String × Json)) (k : String) : Option Json :=
  match fields with
  | [] => none
  | (k2, v) :: rest => if k2 = k then some v else lookupField rest k

/-- Decode a JSON value into a Go `string` field: a missing field keeps
the zero value `""`, a present field must be a JSON string. -/
def getStrField (fields : List (String × Json)) (k : String) : Option String :=
  match lookupField fields k with
  | none => some ""
  | some (.str s) => some s
  | some _ => none

/-- Decode a JSON value into a Go `float64` field: a missing field keeps
the zero value `0`, a present field must be a JSON number. -/
def getNumField (fields : List (String × Json)) (k : String) : Option ℚ :=
  match lookupField fields k with
  | none => some 0
  | some (.num q) => some q
  | some _ => none

/-- Decode a JSON value into a Go `uint64` field: a missing field keeps
the zero value `0`, a present field must be a non-negative integer
number. -/
def getNatField (fields : List (String × Json)) (k : String) : Option Nat :=
  match lookupField fields k with
  | none => some 0
  | some (.num q) => if q.den = 1 ∧ 0 ≤ q.num then some q.num.toNat else none
  | some _ => none

/-- Decoding of one `Indicator` object. -/
def decodeIndicator (j : Json) : Option Indicator :=
  match j with
  | .obj fs => do
      let n ← getStrField fs "name"
      let v ← getNumField fs "value"
      pure ⟨n, v⟩
  | _ => none

/-- Sequential decoding of a JSON array's elements, as `encoding/json`
decodes a slice: any failing element fails the whole decode. -/
def decodeAll {α : Type} (f : Json → Option α) : List Json → Option (List α)
  | [] => some []
  | j :: rest => do
      let x ← f j
      let xs ← decodeAll f rest
      pure (x :: xs)

/-- Decoding of one `DeviceData` object. -/
def decodeDeviceData (j : Json) : Option DeviceData :=
  match j with
  | .obj fs => do
      let n ← getStrField fs "name"
      let c ← getStrField fs "cpu_number"
      let t ← getNatField fs "timestamp"
      let inds ←
        match lookupField fs "indicators" with
        | none => some []
        | some (.arr xs) => decodeAll decodeIndicator xs
        | some _ => none
      pure ⟨n, c, t, inds⟩
  | _ => none

/-- Source lines 342–359: `readBufferFromFile` un-gzips (identity in the
model) and decodes a JSON array of `DeviceData`. -/
def readBufferFromFile (file : Json) : Option (List DeviceData) :=
  match file with
  | .arr xs => decodeAll decodeDeviceData xs
  | _ => none

/-! ## CSV reader (source lines 400–425)

`csv.ReadAll` has already parsed the file into rows of fields; the model
starts from those rows. (A failure to open or parse the file makes the
whole read fail, which `main` treats as fatal; that path is outside the
per-row claim.) -/

/-- Source lines 413–424: keep each row with at least two columns as
`{IP = rec[0], HostName = rec[1]}` and skip the others with a warning. -/
def readAppliancesFromCSV : List (List String) → List Appliance
  | [] => []
  | rec :: rest =>
    if rec.length < 2 then readAppliancesFromCSV rest
    else ⟨rec.getD 0 "", rec.getD 1 ""⟩ :: readAppliancesFromCSV rest

/-! ## Extraction scheduler (source lines 119–149)

The semaphore discipline `sem := make(chan struct{}, extractWorkers)` is
a step relation: the main loop blocks on `sem <- struct{}{}` before
spawning a task (enabled only while fewer than `E` permits are held) and
each task releases its permit on completion. `running` counts the
permits held, which is exactly the number of extraction tasks launched
and not yet finished. -/

/-- Scheduler state: how many of the `N` tasks have been launched and
how many are currently holding a semaphore permit. -/
structure SchedState where
  launched : Nat
  running : Nat
deriving DecidableEq

/-- Transitions of the extraction scheduler with concurrency limit `E`
over `N` source entities (source lines 122–147): `launch` models
`sem <- struct{}{}` followed by `go func(...)`, which blocks unless a
permit is free; `finish` models a task's deferred `<-sem`. -/
inductive SchedStep (E N : Nat) : SchedState → SchedState → Prop
  | launch (s : SchedState) (hN : s.launched < N) (hE : s.running < E) :
      SchedStep E N s ⟨s.launched + 1, s.running + 1⟩
  | finish (s : SchedState) (h : 0 < s.running) :
      SchedStep E N s ⟨s.launched, s.running - 1⟩

/-- States reachable from the start of the extraction phase (no task
launched, no permit held). -/
inductive SchedReachable (E N : Nat) : SchedState → Prop
  | init : SchedReachable E N ⟨0, 0⟩
  | step {s t : SchedState} :
      SchedReachable E N s → SchedStep E N s t → SchedReachable E N t

/-- A concrete normalized record (no indicators), used by witnesses. -/
def sampleRecord : DeviceData :=
  { Name := "host-a", CPUNumber := "0", Timestamp := 1700000000, Indicators := [] }

/-- A concrete raw record none of whose five percentage fields parses as
a number, used by witnesses. -/
def garbledStats : CpuStats :=
  { Name := "host-a", Timestamp := 1700000000, CPUNumber := "0"
    PIdle := "n/a", PUser := "n/a", PSys := "n/a", PIRQ := "n/a", PNice := "n/a" }

/-! ## Theorems -/

/-- Helper for C3: the assignment loop starting at index `k` pairs the
element at offset `i` with lane `(k + i) % L`. -/
theorem assignFrom_getElem? (L : Nat) :
    ∀ (apps : List Appliance) (k i : Nat),
      (assignFrom L k apps)[i]? = (apps[i]?).map (fun a => (a, (k + i) % L)) := by
  intro apps
  induction apps with
  | nil => intro k i; rfl
  | cons a rest ih =>
    intro k i
    cases i with
    | zero => simp [assignFrom]
    | succ j =>
      simp only [assignFrom, List.getElem?_cons_succ, ih (k + 1) j]
      have : k + 1 + j = k + (j + 1) := by omega
      rw [this]

/-- C3: the partitioner sends the entity at source position `i` to lane
`i % L`, a deterministic in-range function of the position alone (the
assignment is computed from the source list, before any extraction
completes); with 3 entities and 2 lanes the lanes are `[0, 1, 0]`. -/
theorem spec_C3_partitioner (apps : List Appliance) (L i : Nat) (hL : 0 < L) :
    (assignLanes apps L)[i]? = (apps[i]?).map (fun a => (a, i % L)) ∧
    i % L < L ∧
    (∀ a b c : Appliance, (assignLanes [a, b, c] 2).map Prod.snd = [0, 1, 0]) := by
  refine ⟨?_, Nat.mod_lt _ hL, ?_⟩
  · simpa using assignFrom_getElem? L apps 0 i
  · intro a b c
    rfl

/-- Witness for C3 at a concrete input. -/
theorem spec_C3_partitioner_witness :
    (assignLanes [⟨"10.0.0.1", "a"⟩, ⟨"10.0.0.2", "b"⟩, ⟨"10.0.0.3", "c"⟩] 2).map
        Prod.snd = [0, 1, 0] :=
  (spec_C3_partitioner [] 2 0 (by decide)).2.2 ⟨"10.0.0.1", "a"⟩ ⟨"10.0.0.2", "b"⟩
    ⟨"10.0.0.3", "c"⟩

/-- C8: the CSV reader returns exactly the rows with at least two
columns, each mapped in order to `{IP = column 0, HostName = column 1}`;
short rows are dropped without failing the read (the function is total). -/
theorem spec_C8_csv_rows (records : List (List String)) :
    readAppliancesFromCSV records =
      (records.filter (fun r => decide (2 ≤ r.length))).map
        (fun r => ⟨r.getD 0 "", r.getD 1 ""⟩) := by
  induction records with
  | nil => rfl
  | cons rec rest ih =>
    by_cases h : rec.length < 2
    · have hd : decide (2 ≤ rec.length) = false := by
        simp only [decide_eq_false_iff_not]; omega
      simp only [readAppliancesFromCSV, if_pos h, List.filter_cons, hd,
        ih, Bool.false_eq_true, if_false]
    · have hd : decide (2 ≤ rec.length) = true := by
        simp only [decide_eq_true_eq]; omega
      simp only [readAppliancesFromCSV, if_neg h, List.filter_cons, hd,
        ih, if_true, List.map_cons]

/-- C9: in every state the extraction scheduler can reach, the number of
tasks holding a semaphore permit (= launched and unfinished) is at most
the concurrency limit `E`, no matter how many entities `N` there are; and
whenever entities remain and a permit is free, launching the next task is
enabled (tasks wait for a permit, they are never rejected). -/
theorem spec_C9_semaphore_bound (E N : Nat) (s : SchedState)
    (h : SchedReachable E N s) :
    s.running ≤ E ∧ s.launched ≤ N ∧
      (s.launched < N → s.running < E →
        SchedStep E N s ⟨s.launched + 1, s.running + 1⟩) := by
  induction h with
  | init => exact ⟨Nat.zero_le _, Nat.zero_le _, fun hN hE => .launch _ hN hE⟩
  | step _ hs ih =>
    obtain ⟨ihr, ihl, _⟩ := ih
    cases hs with
    | launch hN hE =>
      exact ⟨hE, hN, fun h1 h2 => .launch _ h1 h2⟩
    | finish h0 =>
      exact ⟨by dsimp only; omega, ihl, fun h1 h2 => .launch _ h1 h2⟩

/-- Witness for C9: a concrete reachable state (two tasks launched under
limit 2 with 3 entities) respects the bound. -/
theorem spec_C9_semaphore_bound_witness : (⟨2, 2⟩ : SchedState).running ≤ 2 :=
  (spec_C9_semaphore_bound 2 3 ⟨2, 2⟩
    (SchedReachable.step
      (SchedReachable.step SchedReachable.init
        (SchedStep.launch ⟨0, 0⟩ (by decide) (by decide)))
      (SchedStep.launch ⟨1, 1⟩ (by decide) (by decide)))).1

/-- C1: flushing a non-empty snapshot persists the whole snapshot, in
order, to the lane-named file exactly when the send fails (non-2xx
status or network failure), and clears the buffer in every case; on a
2xx status nothing is written and the buffer is cleared. -/
theorem spec_C1_flush_failure_persists (buf : List DeviceData) (wid : Nat)
    (resp : Option Nat) (_hne : buf ≠ []) :
    (∀ code, resp = some code → ¬(200 ≤ code ∧ code ≤ 299) →
        flushBuffer buf wid resp =
          { newData := [], savedFile := some (failedFileName wid, buf) }) ∧
    (resp = none →
        flushBuffer buf wid resp =
          { newData := [], savedFile := some (failedFileName wid, buf) }) ∧
    (∀ code, resp = some code → 200 ≤ code → code ≤ 299 →
        flushBuffer buf wid resp = { newData := [], savedFile := none }) := by
  refine ⟨?_, ?_, ?_⟩
  · intro code hc hbad
    subst hc
    have : sendToAPI buf (some code) = false := by
      simp only [sendToAPI, Bool.and_eq_true, decide_eq_true_eq]
      rcases Nat.lt_or_ge code 200 with h | h
      · simp only [Bool.and_eq_false_iff, decide_eq_false_iff_not]; omega
      · rcases Nat.lt_or_ge 299 code with h2 | h2
        · simp only [Bool.and_eq_false_iff, decide_eq_false_iff_not]; omega
        · exact absurd ⟨h, h2⟩ hbad
    simp [flushBuffer, this]
  · intro hc
    subst hc
    simp [flushBuffer, sendToAPI]
  · intro code hc h1 h2
    subst hc
    have : sendToAPI buf (some code) = true := by
      simp only [sendToAPI, Bool.and_eq_true, decide_eq_true_eq]
      exact ⟨h1, h2⟩
    simp [flushBuffer, this]

/-- Witness for C1: a concrete failed flush (status 500) of a one-record
snapshot persists exactly that record and empties the buffer. -/
theorem spec_C1_flush_failure_persists_witness :
    flushBuffer [sampleRecord] 4 (some 500) =
      { newData := [], savedFile := some (failedFileName 4, [sampleRecord]) } :=
  (spec_C1_flush_failure_persists [sampleRecord] 4 (some 500)
    (by decide)).1 500 rfl (by decide)

/-- Helper for C2: `flushBuffer` always clears the buffer. -/
theorem flushBuffer_newData (b : List DeviceData) (w : Nat) (r : Option Nat) :
    (flushBuffer b w r).newData = [] := by
  unfold flushBuffer
  by_cases h : sendToAPI b r = true <;> simp [h]

/-- Helper for C2: while the buffer stays strictly below the threshold,
the receive loop only accumulates and never flushes. -/
theorem workerLoop_below (th wid : Nat) (resp : Nat → Option Nat) :
    ∀ (items : List DeviceData) (s : WorkerState),
      s.bufData.length + items.length < th →
      workerLoop th wid resp items s = { s with bufData := s.bufData ++ items } := by
  intro items
  induction items with
  | nil => intro s _; simp [workerLoop]
  | cons x xs ih =>
    intro s h
    have hlen : ¬ th ≤ (s.bufData ++ [x]).length := by
      simp only [List.length_append, List.length_cons, List.length_nil]
      simp only [List.length_cons] at h
      omega
    rw [workerLoop, List.foldl_cons]
    have hstep : workerStep th wid resp s x = { s with bufData := s.bufData ++ [x] } := by
      simp only [workerStep]
      rw [if_neg hlen]
    rw [hstep]
    have h2 : ({ s with bufData := s.bufData ++ [x] } : WorkerState).bufData.length
        + xs.length < th := by
      simp only [List.length_append, List.length_cons, List.length_nil]
      simp only [List.length_cons] at h
      omega
    have hrec := ih { s with bufData := s.bufData ++ [x] } h2
    rw [workerLoop] at hrec
    rw [hrec]
    simp [List.append_assoc]

/-- Helper for C2: when the records received bring the buffer exactly to
the threshold, the loop flushes exactly once, at the last record, with
the full accumulated snapshot. -/
theorem workerLoop_exact (th wid : Nat) (resp : Nat → Option Nat) :
    ∀ (items : List DeviceData) (s : WorkerState), items ≠ [] →
      s.bufData.length + items.length = th →
      workerLoop th wid resp items s =
        { bufData := []
          flushes := s.flushes ++ [s.bufData ++ items]
          files := s.files ++
            (flushBuffer (s.bufData ++ items) wid
              (resp s.flushes.length)).savedFile.toList } := by
  intro items
  induction items with
  | nil => intro s hne _; exact absurd rfl hne
  | cons x xs ih =>
    intro s _ hlen
    cases xs with
    | nil =>
      have hth : th ≤ (s.bufData ++ [x]).length := by
        simp only [List.length_append, List.length_cons, List.length_nil]
        simp only [List.length_cons, List.length_nil] at hlen
        omega
      simp only [workerLoop, List.foldl_cons, List.foldl_nil, workerStep]
      rw [if_pos hth]
      simp [flushBuffer_newData]
    | cons y ys =>
      have hlt : ¬ th ≤ (s.bufData ++ [x]).length := by
        simp only [List.length_append, List.length_cons, List.length_nil]
        simp only [List.length_cons] at hlen
        omega
      rw [workerLoop, List.foldl_cons]
      have hstep : workerStep th wid resp s x = { s with bufData := s.bufData ++ [x] } := by
        simp only [workerStep]
        rw [if_neg hlt]
      rw [hstep]
      have h2 : ({ s with bufData := s.bufData ++ [x] } : WorkerState).bufData.length
          + (y :: ys).length = th := by
        simp only [List.length_append, List.length_cons, List.length_nil]
        simp only [List.length_cons] at hlen
        omega
      have hrec := ih { s with bufData := s.bufData ++ [x] } (by simp) h2
      rw [workerLoop] at hrec
      rw [hrec]
      simp [List.append_assoc]

/-- C2: a lane receiving exactly `threshold` records flushes exactly once
and that flush already happens inside the receive loop (so before any
further record could be appended); a lane receiving a positive number of
records below the threshold flushes exactly once, at queue closure; a
lane receiving no records never flushes and never writes a failure file.
In each flushing case the single flushed snapshot is the full record
sequence in order. -/
theorem spec_C2_worker_flush_discipline (th wid : Nat) (resp : Nat → Option Nat)
    (items : List DeviceData) (hth : 0 < th) :
    (items.length = th →
        (workerLoop th wid resp items ⟨[], [], []⟩).flushes = [items] ∧
        (loadWorker th wid resp items).flushes = [items]) ∧
    (0 < items.length → items.length < th →
        (workerLoop th wid resp items ⟨[], [], []⟩).flushes = [] ∧
        (loadWorker th wid resp items).flushes = [items]) ∧
    (items = [] →
        (loadWorker th wid resp items).flushes = [] ∧
        (loadWorker th wid resp items).files = []) := by
  refine ⟨?_, ?_, ?_⟩
  · intro hlen
    have hne : items ≠ [] := by
      intro h; subst h; simp at hlen; omega
    have hloop := workerLoop_exact th wid resp items ⟨[], [], []⟩ hne (by simpa using hlen)
    constructor
    · rw [hloop]
      simp
    · unfold loadWorker
      rw [hloop]
      simp
  · intro hpos hlt
    have hloop := workerLoop_below th wid resp items ⟨[], [], []⟩ (by simpa using hlt)
    have hne : items ≠ [] := by
      intro h; subst h; simp at hpos
    constructor
    · rw [hloop]
    · unfold loadWorker
      rw [hloop]
      dsimp only
      simp only [List.nil_append]
      rw [if_pos hne]
  · intro h
    subst h
    constructor <;> rfl

/-- Witness for C2: one record under threshold 2 produces exactly one
flush, at closure, containing that record. -/
theorem spec_C2_worker_flush_discipline_witness :
    (loadWorker 2 0 (fun _ => some 500) [sampleRecord]).flushes = [[sampleRecord]] :=
  ((spec_C2_worker_flush_discipline 2 0 (fun _ => some 500) [sampleRecord]
    (by decide)).2.1 (by decide) (by decide)).2

/-- C5: for a persisted file the recovery loader processes whose records
decode and whose parsed lane id is in range, every record is re-enqueued
exactly once onto that lane's queue, in file order, and the delete action
comes only after all the enqueue actions; a file that fails to decode is
skipped and stays on disk, changing no queue; recovery with no files
present changes nothing. -/
theorem spec_C5_recovery_per_file (st : RecoveryState) (name : String)
    (rs : List DeviceData) (h0 : 0 ≤ extractWorkerID name)
    (hlt : (extractWorkerID name).toNat < st.queues.length) :
    processFile st (name, some rs) =
      some { queues := st.queues.set (extractWorkerID name).toNat
               (st.queues.get ⟨(extractWorkerID name).toNat, hlt⟩ ++ rs)
             remaining := st.remaining
             events := st.events ++ rs.map (RecEvent.enq (extractWorkerID name))
               ++ [RecEvent.del name] } ∧
    processFile st (name, none) =
      some { st with remaining := st.remaining ++ [(name, none)] } ∧
    (∀ qs : List (List DeviceData),
        loadFailedBuffers [] qs = some { queues := qs, remaining := [], events := [] }) := by
  refine ⟨?_, rfl, fun qs => rfl⟩
  simp only [processFile, enqueueAll]
  rw [dif_pos ⟨h0, hlt⟩]

/-- Witness for C5 at a concrete input: recovering a one-record file for
lane 0 into a single empty lane enqueues the record and deletes the file
after the enqueue. -/
theorem spec_C5_recovery_per_file_witness :
    processFile ⟨[[]], [], []⟩ ("buffer_failed_worker0.json.gz", some [sampleRecord]) =
      some ⟨[[sampleRecord]], [],
        [RecEvent.enq 0 sampleRecord, RecEvent.del "buffer_failed_worker0.json.gz"]⟩ := by
  have h := (spec_C5_recovery_per_file ⟨[[]], [], []⟩ "buffer_failed_worker0.json.gz"
    [sampleRecord] (by decide) (by decide)).1
  rw [h]
  decide

/-- Helper for C7: sequentially decoding the encodings of a list by any
decoder that inverts the element encoder recovers the list. -/
theorem decodeAll_map {α : Type} (f : α → Json) (g : Json → Option α)
    (hfg : ∀ x, g (f x) = some x) : ∀ l : List α, decodeAll g (l.map f) = some l := by
  intro l
  induction l with
  | nil => rfl
  | cons x xs ih => simp [decodeAll, hfg, ih]

/-- Helper for C7: decoding an encoded indicator recovers it. -/
theorem decodeIndicator_encodeIndicator (ind : Indicator) :
    decodeIndicator (encodeIndicator ind) = some ind := by
  simp [decodeIndicator, encodeIndicator, getStrField, getNumField, lookupField]

/-- Helper for C7: decoding an encoded record recovers it. -/
theorem decodeDeviceData_encodeDeviceData (d : DeviceData) :
    decodeDeviceData (encodeDeviceData d) = some d := by
  simp [decodeDeviceData, encodeDeviceData, getStrField, getNatField, lookupField,
    decodeAll_map encodeIndicator decodeIndicator decodeIndicator_encodeIndicator]

/-- C7: the persistence format round-trips — reading back a saved buffer
yields the same record sequence in the same order. -/
theorem spec_C7_persistence_roundtrip (data : List DeviceData) :
    readBufferFromFile (saveBufferToFile data) = some data := by
  simp only [readBufferFromFile, saveBufferToFile]
  exact decodeAll_map encodeDeviceData decodeDeviceData
    decodeDeviceData_encodeDeviceData data

/-- C4: the transformer deterministically maps one raw record to one
normalized record (it is a function) preserving name, cpu slot and
timestamp; the indicators appear in the fixed order
{utilization, nice, user, system, irq}; the first indicator's value is
`100 − idle` with `idle` the parsed idle field; and every percentage
field that fails to parse contributes the value `0` (so an unparsable
idle yields utilization `100`), not an error. -/
theorem spec_C4_transform_pure (cpu : CpuStats) :
    (transform cpu).Name = cpu.Name ∧
    (transform cpu).CPUNumber = cpu.CPUNumber ∧
    (transform cpu).Timestamp = cpu.Timestamp ∧
    (transform cpu).Indicators.map Indicator.Name =
      ["utilization", "nice", "user", "system", "irq"] ∧
    (transform cpu).Indicators[0]? =
      some ⟨"utilization", 100 - parseFloatOr0 cpu.PIdle⟩ ∧
    (parseFloat cpu.PIdle = none →
      (transform cpu).Indicators[0]? = some ⟨"utilization", 100⟩) ∧
    (parseFloat cpu.PNice = none →
      (transform cpu).Indicators[1]? = some ⟨"nice", 0⟩) ∧
    (parseFloat cpu.PUser = none →
      (transform cpu).Indicators[2]? = some ⟨"user", 0⟩) ∧
    (parseFloat cpu.PSys = none →
      (transform cpu).Indicators[3]? = some ⟨"system", 0⟩) ∧
    (parseFloat cpu.PIRQ = none →
      (transform cpu).Indicators[4]? = some ⟨"irq", 0⟩) := by
  refine ⟨rfl, rfl, rfl, rfl, rfl, ?_, ?_, ?_, ?_, ?_⟩ <;>
    (intro h; simp [transform, parseFloatOr0, h])

/-- Witness for C4: on a record whose fields are all unparsable, the
`nice` indicator is `0`. -/
theorem spec_C4_transform_pure_witness :
    (transform garbledStats).Indicators[1]? = some ⟨"nice", 0⟩ :=
  (spec_C4_transform_pure garbledStats).2.2.2.2.2.2.1 (by decide)

/-- Helper for C6: the skip counter consumes exactly the separator
characters already matched. -/
theorem goSplitAux_skip_consume (s0 : Char) (srest : List Char) :
    ∀ (u : List Char) (acc B : List Char),
      goSplitAux s0 srest u.length acc (u ++ B) = goSplitAux s0 srest 0 acc B := by
  intro u
  induction u with
  | nil => intro acc B; rfl
  | cons c u' ih =>
    intro acc B
    simp only [List.length_cons, List.cons_append, goSplitAux]
    exact ih acc B

/-- Helper for C6: characters that cannot start the separator are moved
into the current chunk unchanged. -/
theorem goSplitAux_skip_chars (s0 : Char) (srest : List Char) :
    ∀ (A : List Char) (acc T : List Char), (∀ c ∈ A, c ≠ s0) →
      goSplitAux s0 srest 0 acc (A ++ T) =
        goSplitAux s0 srest 0 (A.reverse ++ acc) T := by
  intro A
  induction A with
  | nil => intro acc T _; rfl
  | cons a A' ih =>
    intro acc T h
    have ha : a ≠ s0 := h a (List.mem_cons_self a A')
    have hp : (s0 :: srest).isPrefixOf (a :: (A' ++ T)) = false := by
      simp only [List.isPrefixOf, Bool.and_eq_false_iff]
      exact Or.inl (by simpa using fun he => ha he.symm)
    simp only [List.cons_append, goSplitAux, List.append_eq, hp, Bool.false_eq_true,
      if_false]
    rw [ih (a :: acc) T (fun c hc => h c (List.mem_cons_of_mem a hc))]
    simp [List.append_assoc]

/-- Helper for C6: hitting the separator closes the current chunk and
restarts scanning after it. -/
theorem goSplitAux_hit_sep (s0 : Char) (srest : List Char) (acc B : List Char) :
    goSplitAux s0 srest 0 acc ((s0 :: srest) ++ B) =
      acc.reverse :: goSplitAux s0 srest 0 [] B := by
  have hp : (s0 :: srest).isPrefixOf (s0 :: (srest ++ B)) = true := by
    rw [List.isPrefixOf_iff_prefix]
    exact List.prefix_append (s0 :: srest) B
  simp only [List.cons_append, goSplitAux, List.append_eq, hp, if_true]
  rw [goSplitAux_skip_consume s0 srest srest [] B]

/-- Helper for C6: when the separator occurs nowhere in the rest of the
input, the scan produces a single final chunk. -/
theorem goSplitAux_no_occurrence (s0 : Char) (srest : List Char) :
    ∀ (B acc : List Char), (∀ i, ¬ (s0 :: srest).isPrefixOf (B.drop i)) →
      goSplitAux s0 srest 0 acc B = [acc.reverse ++ B] := by
  intro B
  induction B with
  | nil => intro acc _; simp [goSplitAux]
  | cons c B' ih =>
    intro acc h
    have h0 : (s0 :: srest).isPrefixOf (c :: B') = false := by
      have := h 0
      simp only [List.drop_zero] at this
      exact Bool.eq_false_iff.mpr this
    simp only [goSplitAux, h0, Bool.false_eq_true, if_false]
    rw [ih (c :: acc) (fun i => by simpa using h (i + 1))]
    simp

/-- Helper for C6: the scan always produces at least one chunk. -/
theorem goSplitAux_length_pos (s0 : Char) (srest : List Char) :
    ∀ (B : List Char) (skip : Nat) (acc : List Char),
      1 ≤ (goSplitAux s0 srest skip acc B).length := by
  intro B
  induction B with
  | nil => intro skip acc; cases skip <;> simp [goSplitAux]
  | cons c B' ih =>
    intro skip acc
    cases skip with
    | zero =>
      by_cases hp : (s0 :: srest).isPrefixOf (c :: B') = true
      · simp only [goSplitAux, hp, if_true, List.length_cons]
        omega
      · simp only [goSplitAux, Bool.eq_false_iff.mpr hp, Bool.false_eq_true, if_false]
        exact ih 0 (c :: acc)
    | succ n =>
      simp only [goSplitAux]
      exact ih n acc

/-- Helper for C6: an occurrence of the separator in the input yields at
least two chunks. -/
theorem goSplitAux_occurrence_two (s0 : Char) (srest : List Char) :
    ∀ (u acc v : List Char),
      2 ≤ (goSplitAux s0 srest 0 acc (u ++ (s0 :: srest) ++ v)).length := by
  intro u
  induction u with
  | nil =>
    intro acc v
    simp only [List.nil_append, goSplitAux_hit_sep, List.length_cons]
    have := goSplitAux_length_pos s0 srest v 0 []
    omega
  | cons c u' ih =>
    intro acc v
    by_cases hp : (s0 :: srest).isPrefixOf (c :: (u' ++ (s0 :: srest) ++ v)) = true
    · simp only [List.cons_append, goSplitAux, List.append_eq, hp, if_true,
        List.length_cons]
      have := goSplitAux_length_pos s0 srest (u' ++ (s0 :: srest) ++ v) srest.length []
      omega
    · simp only [List.cons_append, goSplitAux, List.append_eq,
        Bool.eq_false_iff.mpr hp, Bool.false_eq_true, if_false]
      exact ih (c :: acc) v

/-- Helper for C6: dropping the whole-list precondition to a head check,
a list none of whose members can start the separator contains no
occurrence of it. -/
theorem no_occurrence_of_ne_head (s0 : Char) (srest : List Char) (B : List Char)
    (h : ∀ c ∈ B, c ≠ s0) : ∀ i, ¬ (s0 :: srest).isPrefixOf (B.drop i) := by
  intro i hp
  cases hd : B.drop i with
  | nil => rw [hd] at hp; simp [List.isPrefixOf] at hp
  | cons d rest =>
    rw [hd] at hp
    simp only [List.isPrefixOf, Bool.and_eq_true, beq_iff_eq] at hp
    have hdB : d ∈ B := List.drop_subset i B (hd ▸ List.mem_cons_self d rest)
    exact h d hdB hp.1.symm

/-- Helper for C6: absence of a decomposition `B = u ++ sep ++ v` means
the separator has no occurrence. -/
theorem no_occurrence_of_no_decomp (s0 : Char) (srest : List Char) (B : List Char)
    (h : ¬ ∃ u v, B = u ++ (s0 :: srest) ++ v) :
    ∀ i, ¬ (s0 :: srest).isPrefixOf (B.drop i) := by
  intro i hp
  rw [List.isPrefixOf_iff_prefix] at hp
  obtain ⟨t, ht⟩ := hp
  exact h ⟨B.take i, t, by rw [List.append_assoc, ht, List.take_append_drop]⟩

/-- Helper for C6: `dropWhile` is the identity on a list whose head does
not satisfy the predicate. -/
theorem dropWhile_eq_self_of_all (p : Char → Bool) :
    ∀ l : List Char, (∀ c ∈ l, p c = false) → l.dropWhile p = l := by
  intro l h
  cases l with
  | nil => rfl
  | cons c rest =>
    rw [List.dropWhile_cons]
    simp [h c (List.mem_cons_self c rest)]

/-- Helper for C6: `takeWhile` is the identity on a list all of whose
members satisfy the predicate. -/
theorem takeWhile_eq_self_of_all (p : Char → Bool) :
    ∀ l : List Char, (∀ c ∈ l, p c = true) → l.takeWhile p = l := by
  intro l
  induction l with
  | nil => intro _; rfl
  | cons c rest ih =>
    intro h
    rw [List.takeWhile_cons]
    simp only [h c (List.mem_cons_self c rest), if_true]
    rw [ih (fun d hd => h d (List.mem_cons_of_mem c hd))]

/-- Helper for C6: `filepath.Base` leaves a slash-free name unchanged. -/
theorem baseName_no_slash (cs : List Char) (h : ∀ c ∈ cs, c ≠ '/') :
    baseName cs = cs := by
  unfold baseName
  rw [dropWhile_eq_self_of_all _ cs.reverse
    (fun c hc => by simpa using h c (List.mem_reverse.mp hc))]
  rw [takeWhile_eq_self_of_all _ cs.reverse
    (fun c hc => by simpa using h c (List.mem_reverse.mp hc))]
  exact cs.reverse_reverse

/-- Helper for C6: `strings.TrimSuffix` removes an actual suffix. -/
theorem trimSuffix_append (X S : List Char) : trimSuffix (X ++ S) S = X := by
  unfold trimSuffix
  have hs : S.isSuffixOf (X ++ S) = true := by
    rw [List.isSuffixOf_iff_suffix]
    exact List.suffix_append X S
  rw [if_pos hs, List.length_append, Nat.add_sub_cancel, List.take_left]

/-- Helper for C6: a decimal digit cannot start the separator `worker`
and is not a path separator. -/
theorem digit_ne_w_slash (c : Char) (h : c.isDigit) : c ≠ 'w' ∧ c ≠ '/' := by
  constructor
  · intro he; rw [he] at h; exact absurd h (by decide)
  · intro he; rw [he] at h; exact absurd h (by decide)

/-- Helper for C6: `strconv.Atoi` on a non-empty all-digit string returns
its decimal value. -/
theorem parseIntGo_digits (ds : List Char) (hne : ds ≠ [])
    (hd : ∀ c ∈ ds, c.isDigit) : parseIntGo ds = some (digitsToNat ds : Int) := by
  cases ds with
  | nil => exact absurd rfl hne
  | cons d rest =>
    have hd0 := hd d (List.mem_cons_self d rest)
    have h1 : ¬ d = '-' := by intro h; rw [h] at hd0; exact absurd hd0 (by decide)
    have h2 : ¬ d = '+' := by intro h; rw [h] at hd0; exact absurd hd0 (by decide)
    have hall : (d :: rest).all Char.isDigit = true := List.all_eq_true.mpr hd
    simp only [parseIntGo, if_neg h1, if_neg h2, digitsOpt]
    rw [if_pos ⟨List.cons_ne_nil d rest, hall⟩]
    rfl

/-- Helper for C6: on any slash-free recovery file name of the shape
`buffer_failed_worker<tail>.json.gz`, the base-name/trim/split pipeline of
`extractWorkerID` yields `buffer_failed_` followed by the chunks of
`tail`. -/
theorem recovery_name_parts (tail : List Char) (hs : ∀ c ∈ tail, c ≠ '/') :
    goSplit
      (trimSuffix
        (baseName ("buffer_failed_worker".toList ++ tail ++ ".json.gz".toList))
        (".json.gz".toList))
      ("worker".toList) =
      "buffer_failed_".toList :: goSplitAux 'w' ("orker".toList) 0 [] tail := by
  have hp1 : ∀ c ∈ "buffer_failed_worker".toList, c ≠ '/' := by decide
  have hp2 : ∀ c ∈ ".json.gz".toList, c ≠ '/' := by decide
  have hflat : ∀ c ∈ "buffer_failed_worker".toList ++ tail ++ ".json.gz".toList,
      c ≠ '/' := by
    intro c hc
    rcases List.mem_append.mp hc with hc1 | hc2
    · rcases List.mem_append.mp hc1 with hc3 | hc4
      · exact hp1 c hc3
      · exact hs c hc4
    · exact hp2 c hc2
  rw [baseName_no_slash _ hflat, trimSuffix_append]
  show goSplitAux 'w' ("orker".toList) 0 [] ("buffer_failed_worker".toList ++ tail) = _
  have hpre : "buffer_failed_worker".toList ++ tail =
      "buffer_failed_".toList ++ (('w' :: "orker".toList) ++ tail) := by
    rw [← List.append_assoc]
    rfl
  rw [hpre]
  rw [goSplitAux_skip_chars 'w' ("orker".toList) ("buffer_failed_".toList) []
    (('w' :: "orker".toList) ++ tail) (by decide)]
  rw [goSplitAux_hit_sep]
  simp

/-- C6: `extractWorkerID` returns the numeric value `k` for every
well-formed name `buffer_failed_worker<k>.json.gz` (`<k>` a non-empty
digit string); it returns lane `0` whenever the part after `worker` is
not a valid integer (whether or not it contains further `worker`
separators, since any part containing `worker` is non-numeric), and
lane `0` for any slash-free name containing no `worker` separator at
all. -/
theorem spec_C6_extract_worker_id :
    (∀ ds : List Char, ds ≠ [] → (∀ c ∈ ds, c.isDigit) →
      extractWorkerID
        ⟨"buffer_failed_worker".toList ++ ds ++ ".json.gz".toList⟩ =
        (digitsToNat ds : Int)) ∧
    (∀ bad : List Char, (∀ c ∈ bad, c ≠ '/') → parseIntGo bad = none →
      extractWorkerID
        ⟨"buffer_failed_worker".toList ++ bad ++ ".json.gz".toList⟩ = 0) ∧
    (∀ cs : List Char, (∀ c ∈ cs, c ≠ '/') →
      (¬ ∃ u v, cs = u ++ "worker".toList ++ v) →
      extractWorkerID ⟨cs ++ ".json.gz".toList⟩ = 0) := by
  refine ⟨?_, ?_, ?_⟩
  · intro ds hne hd
    show extractWorkerIDCore
      ("buffer_failed_worker".toList ++ ds ++ ".json.gz".toList) = _
    simp only [extractWorkerIDCore]
    rw [recovery_name_parts ds (fun c hc => (digit_ne_w_slash c (hd c hc)).2)]
    rw [goSplitAux_no_occurrence 'w' ("orker".toList) ds []
      (no_occurrence_of_ne_head 'w' ("orker".toList) ds
        (fun c hc => (digit_ne_w_slash c (hd c hc)).1))]
    dsimp only
    simp only [List.reverse_nil, List.nil_append]
    rw [parseIntGo_digits ds hne hd]
  · intro bad hs hbad
    show extractWorkerIDCore
      ("buffer_failed_worker".toList ++ bad ++ ".json.gz".toList) = _
    simp only [extractWorkerIDCore]
    rw [recovery_name_parts bad hs]
    by_cases hocc : ∃ u v, bad = u ++ ('w' :: "orker".toList) ++ v
    · obtain ⟨u, v, rfl⟩ := hocc
      have h2 := goSplitAux_occurrence_two 'w' ("orker".toList) u [] v
      rcases hg : goSplitAux 'w' ("orker".toList) 0 []
          (u ++ ('w' :: "orker".toList) ++ v) with _ | ⟨a, _ | ⟨b, t⟩⟩
      · rfl
      · rw [hg] at h2
        simp at h2
      · rfl
    · rw [goSplitAux_no_occurrence 'w' ("orker".toList) bad []
        (no_occurrence_of_no_decomp 'w' ("orker".toList) bad hocc)]
      dsimp only
      simp only [List.reverse_nil, List.nil_append]
      rw [hbad]
  · intro cs h hocc
    show extractWorkerIDCore (cs ++ ".json.gz".toList) = _
    simp only [extractWorkerIDCore]
    have hp2 : ∀ c ∈ ".json.gz".toList, c ≠ '/' := by decide
    have hflat : ∀ c ∈ cs ++ ".json.gz".toList, c ≠ '/' := fun c hc =>
      (List.mem_append.mp hc).elim (fun h1 => h c h1) (fun h2 => hp2 c h2)
    rw [baseName_no_slash _ hflat, trimSuffix_append]
    show (match goSplitAux 'w' ("orker".toList) 0 [] cs with
          | [_, p1] => (match parseIntGo p1 with | some id => id | none => (0 : Int))
          | _ => (0 : Int)) = (0 : Int)
    rw [goSplitAux_no_occurrence 'w' ("orker".toList) cs []
      (no_occurrence_of_no_decomp 'w' ("orker".toList) cs hocc)]

/-- Witness for C6: the well-formed name for lane 7 parses to 7. -/
theorem spec_C6_extract_worker_id_witness :
    extractWorkerID
      ⟨"buffer_failed_worker".toList ++ ['7'] ++ ".json.gz".toList⟩ = 7 := by
  have h := spec_C6_extract_worker_id.1 ['7'] (by decide) (by decide)
  rw [h]
  decide

/-- C10, counterexample: the filename `buffer_failed_worker15.json.gz`
matches the recovery glob pattern, yet the worker identifier parsed from
it is `15`, which is not below the number of lanes (`loadWorkers = 10`),
so indexing `dataChan` with it would be out of range. -/
theorem spec_C10_counterexample :
    globMatches "buffer_failed_worker15.json.gz" = true ∧
    ¬ (extractWorkerID "buffer_failed_worker15.json.gz" < (loadWorkers : Int)) := by
  constructor
  · decide
  · decide

/-- C10, amended: for every persisted-failure file the program itself
writes — named `failedFileName k` by `flushBuffer` for a lane
`k < loadWorkers` — the name matches the recovery glob and the worker
identifier parsed back from it is exactly `k`, hence within the bounds of
the lane-queue array. -/
theorem spec_C10_own_files_in_bounds (k : Nat) (hk : k < loadWorkers) :
    globMatches (failedFileName k) = true ∧
    0 ≤ extractWorkerID (failedFileName k) ∧
    extractWorkerID (failedFileName k) < (loadWorkers : Int) ∧
    extractWorkerID (failedFileName k) = (k : Int) := by
  simp only [loadWorkers] at hk
  interval_cases k <;> exact ⟨by decide, by decide, by decide, by decide⟩

/-- Witness for the amended C10 at lane 3. -/
theorem spec_C10_own_files_in_bounds_witness :
    extractWorkerID (failedFileName 3) = (3 : Int) :=
  (spec_C10_own_files_in_bounds 3 (by decide)).2.2.2
